import Mathlib

/-!
Shallow embedding of `src/coingecko.py`, a command-line tool that fetches
cryptocurrency prices and converts between fiat and crypto amounts.

Modelling conventions:
* Python floats are modelled as exact rationals (`ℚ`); the fixed-precision
  `f"{x:.Nf}"` formatting is modelled by rounding the rational at `N` decimal
  places with ties to even, which is how CPython renders binary floats.
* Python strings are modelled as Lean `String`s; `str.upper` / `str.lower`
  are modelled on their ASCII behaviour (`strUpper` / `strLower` below).
* Network effects are modelled by passing the gateway's response as an
  explicit function argument; a `requests` exception is `GatewayResp.failure`
  and a response JSON lacking the queried id is `GatewayResp.ok none`.
* `sys.exit(1)` with a message on stderr is modelled as `Except.error msg`;
  successful printing to stdout is `Except.ok` of the printed text.
-/

namespace Coingecko

/-- Python `str.upper()` restricted to its ASCII action: uppercase every
basic-latin lowercase letter, leave all other characters unchanged. -/
def strUpper (s : String) : String := ⟨s.data.map Char.toUpper⟩

/-- Python `str.lower()` restricted to its ASCII action. -/
def strLower (s : String) : String := ⟨s.data.map Char.toLower⟩

/-- The static ticker → CoinGecko-identifier table `COIN_MAPPING`
(`src/coingecko.py` lines 13–36), as an association list in source order. -/
def COIN_MAPPING : List (String × String) :=
  [("ETH", "ethereum"),
   ("BTC", "bitcoin"),
   ("USDC", "usd-coin"),
   ("USDT", "tether"),
   ("BNB", "binancecoin"),
   ("SOL", "solana"),
   ("XRP", "ripple"),
   ("ADA", "cardano"),
   ("DOGE", "dogecoin"),
   ("DOT", "polkadot"),
   ("MATIC", "matic-network"),
   ("AVAX", "avalanche-2"),
   ("LINK", "chainlink"),
   ("UNI", "uniswap"),
   ("ATOM", "cosmos"),
   ("XMR", "monero"),
   ("HYPE", "hyperliquid"),
   ("RISE", "sunrise"),
   ("ASTR", "astar"),
   ("XYM", "symbol"),
   ("LOOT", "lootcoin"),
   ("JPYC", "jpyc")]

/-- `dict.get k` on an association list: the value at the first matching key. -/
def dictGet (l : List (String × String)) (k : String) : Option String :=
  match l with
  | [] => none
  | (k', v) :: rest => if k = k' then some v else dictGet rest k

/-- `get_coin_id` (lines 39–43): uppercase the name, look it up in
`COIN_MAPPING`, and fall back to the lowercased name on a miss. -/
def get_coin_id (coin_name : String) : String :=
  (dictGet COIN_MAPPING (strUpper coin_name)).getD (strLower coin_name)

/-! ### Decimal rendering

CPython's `f"{x:.Nf}"` renders the value rounded to `N` decimal places with
ties to even.  We model it on exact rationals: scale by `10^N`, round
half-to-even to an integer, and print integer part, `.`, and a zero-padded
`N`-digit fraction.  The digit emitters take explicit fuel so that every
definition is structurally recursive (and hence kernel-reducible). -/

/-- Decimal digits of `x`, least significant first; `fuel` bounds recursion
depth (`fuel = x + 1` always suffices). -/
def natDigitsRevFuel : Nat → Nat → List Char
  | 0, _ => []
  | fuel + 1, x => if x = 0 then [] else Nat.digitChar (x % 10) :: natDigitsRevFuel fuel (x / 10)

/-- Decimal digits of `x`, most significant first (empty for `0`). -/
def natDigits (x : Nat) : List Char := (natDigitsRevFuel (x + 1) x).reverse

/-- Decimal rendering of a natural number. -/
def natStr (x : Nat) : String := if x = 0 then "0" else ⟨natDigits x⟩

/-- Fraction part of a fixed-point rendering: the digits of `x`, left-padded
with zeros to exactly `n` places (assuming `x < 10 ^ n`). -/
def fracPad (n : Nat) (x : Nat) : String := ⟨List.leftpad n '0' (natDigits x)⟩

/-- Round a rational to an integer, ties to even — the rounding CPython
applies when formatting with `%.Nf`. -/
def roundHalfEven (q : ℚ) : ℤ :=
  let n := ⌊q⌋
  let r := q - n
  if r < 1/2 then n
  else if 1/2 < r then n + 1
  else if n % 2 = 0 then n else n + 1

/-- `f"{q:.nf}"` for a non-negative rational. -/
def formatFixedNN (q : ℚ) (n : Nat) : String :=
  let m := (roundHalfEven (q * 10 ^ n)).toNat
  natStr (m / 10 ^ n) ++ "." ++ fracPad n (m % 10 ^ n)

/-- `f"{q:.nf}"`: sign followed by the non-negative rendering. -/
def formatFixed (q : ℚ) (n : Nat) : String :=
  if q < 0 then "-" ++ formatFixedNN (-q) n else formatFixedNN q n

/-- Python `s.rstrip('0')`. -/
def rstripZeros (s : String) : String := ⟨(s.data.reverse.dropWhile (· = '0')).reverse⟩

/-- Python `s.rstrip('.')`. -/
def rstripDot (s : String) : String := ⟨(s.data.reverse.dropWhile (· = '.')).reverse⟩

/-- The `.rstrip('0').rstrip('.')` post-processing applied throughout
`format_price`, `format_large_number` and `format_supply`. -/
def trimmed (s : String) : String := rstripDot (rstripZeros s)

/-- `format_price` (lines 146–171): currency-dependent precision bands with
trailing-zero/point trimming, currency code appended with no space. -/
def format_price (price : ℚ) (currency : String) : String :=
  if currency = "USD" then
    if price < 1/100 then trimmed (formatFixed price 8) ++ currency
    else if price < 1 then trimmed (formatFixed price 6) ++ currency
    else if price < 1000 then trimmed (formatFixed price 4) ++ currency
    else trimmed (formatFixed price 2) ++ currency
  else if currency = "JPY" then
    if price < 1 then trimmed (formatFixed price 4) ++ currency
    else trimmed (formatFixed price 2) ++ currency
  else
    if price < 1/100 then trimmed (formatFixed price 8) ++ currency
    else if price < 1 then trimmed (formatFixed price 6) ++ currency
    else trimmed (formatFixed price 2) ++ currency

/-- `format_crypto_amount` (lines 174–182): precision bands with NO
trimming, coin name appended directly. -/
def format_crypto_amount (amount : ℚ) (coin_name : String) : String :=
  if amount < 1/10000 then formatFixed amount 8 ++ coin_name
  else if amount < 1 then formatFixed amount 6 ++ coin_name
  else formatFixed amount 2 ++ coin_name

/-! ### Grouped rendering (`f"{v:,.2f}"` and `f"{v:,}"`) -/

/-- Insert a comma after every third character of a least-significant-first
digit list; `fuel` bounds recursion depth (`fuel = ds.length` suffices). -/
def groupChunksFuel : Nat → List Char → List Char
  | 0, ds => ds
  | fuel + 1, ds => if ds.length ≤ 3 then ds else ds.take 3 ++ ',' :: groupChunksFuel fuel (ds.drop 3)

/-- Decimal rendering of a natural number with thousands separators. -/
def groupNat (x : Nat) : String :=
  if x = 0 then "0" else ⟨(groupChunksFuel x (natDigits x).reverse).reverse⟩

/-- `f"{q:,.nf}"` for a non-negative rational: like `formatFixedNN` but the
integer part is grouped with thousands separators. -/
def formatFixedGroupedNN (q : ℚ) (n : Nat) : String :=
  let m := (roundHalfEven (q * 10 ^ n)).toNat
  groupNat (m / 10 ^ n) ++ "." ++ fracPad n (m % 10 ^ n)

/-- `f"{q:,.nf}"`: sign followed by the non-negative grouped rendering. -/
def formatFixedGrouped (q : ℚ) (n : Nat) : String :=
  if q < 0 then "-" ++ formatFixedGroupedNN (-q) n else formatFixedGroupedNN q n

/-- Python `f"{i:,}"` for an integer. -/
def groupInt (i : ℤ) : String :=
  if i < 0 then "-" ++ groupNat (-i).toNat else groupNat i.toNat

/-- `format_large_number` (lines 200–214): `None ↦ "N/A"`, otherwise grouped
fixed-point with 2 decimals for values ≥ 1000 (the source tests ≥ 1000000
first, redundantly, with the same precision) and 4 decimals below, trimmed. -/
def format_large_number (value : Option ℚ) : String :=
  match value with
  | none => "N/A"
  | some v =>
    if v ≥ 1000000 then trimmed (formatFixedGrouped v 2)
    else if v ≥ 1000 then trimmed (formatFixedGrouped v 2)
    else trimmed (formatFixedGrouped v 4)

/-- `format_supply` (lines 217–227): `None ↦ "N/A"`; integral values render
as grouped integers (`value == int(value)` is integrality, i.e. denominator
1); otherwise grouped 2-decimal fixed-point, trimmed. -/
def format_supply (value : Option ℚ) : String :=
  match value with
  | none => "N/A"
  | some v =>
    if v.den = 1 then groupInt v.num else trimmed (formatFixedGrouped v 2)

/-! ### Amount parsing (`parse_amount_and_currency`, lines 185–197)

The source applies `re.match(r'^([\d,]+\.?\d*)([A-Z]+)$', arg.upper())`.
The two character classes are disjoint and `.` belongs to neither, so the
anchored match is equivalent to the maximal-munch split implemented by
`regexSplit`: a non-empty run of digits/commas, an optional point followed
by a run of digits, and a non-empty all-uppercase-letter remainder. -/

/-- Membership in the regex class `[\d,]`. -/
def isNumC (c : Char) : Bool := c.isDigit || c == ','

/-- Membership in the regex class `[A-Z]`. -/
def isUpperAZ (c : Char) : Bool := 'A' ≤ c && c ≤ 'Z'

/-- Matching of `\.?\d*` then `([A-Z]+)$` against the remainder `r1` that
follows the numeric run `p1`: an optional point takes a further digit run
into the first group, and what is left must be a non-empty run of uppercase
letters forming the second group. -/
def afterNum (p1 r1 : List Char) : Option (String × String) :=
  match r1 with
  | '.' :: rest =>
    if !(rest.dropWhile Char.isDigit).isEmpty && (rest.dropWhile Char.isDigit).all isUpperAZ
    then some (⟨p1 ++ '.' :: rest.takeWhile Char.isDigit⟩, ⟨rest.dropWhile Char.isDigit⟩)
    else none
  | _ => if !r1.isEmpty && r1.all isUpperAZ then some (⟨p1⟩, ⟨r1⟩) else none

/-- The anchored match of `^([\d,]+\.?\d*)([A-Z]+)$` against `u`, returning
the two capture groups.  The classes `[\d,]`, `\d` and `[A-Z]` are pairwise
disjoint and none contains `.`, so the anchored regex match is equivalent
to this maximal-munch split. -/
def regexSplit (u : String) : Option (String × String) :=
  if (u.data.takeWhile isNumC).isEmpty then none
  else afterNum (u.data.takeWhile isNumC) (u.data.dropWhile isNumC)

/-- Python `amount_str.replace(',', '')`. -/
def stripCommas (s : String) : String := ⟨s.data.filter (· ≠ ',')⟩

/-- Numeric value of a most-significant-first digit list. -/
def natOfDigits (l : List Char) : Nat := l.foldl (fun a c => 10 * a + (c.toNat - 48)) 0

/-- Python `float(s)` on the comma-stripped numeric group: the group has
shape `digits* ('.' digits*)?`, and conversion succeeds exactly when it
contains at least one digit (`float('')` and `float('.')` raise). -/
def ratOfNumStr (s : String) : Option ℚ :=
  let intPart := s.data.takeWhile (· ≠ '.')
  let fracPart := (s.data.dropWhile (· ≠ '.')).drop 1
  if intPart.all Char.isDigit && fracPart.all Char.isDigit
      && !(intPart.isEmpty && fracPart.isEmpty) then
    some ((natOfDigits intPart : ℚ) + (natOfDigits fracPart : ℚ) / 10 ^ fracPart.length)
  else none

/-- `parse_amount_and_currency` (lines 185–197): uppercase the argument,
match the regex, strip commas from the numeric group and convert to a
number; any failure yields `none` (the source's `(None, None)`). -/
def parse_amount_and_currency (arg : String) : Option (ℚ × String) :=
  match regexSplit (strUpper arg) with
  | none => none
  | some (num, cur) =>
    match ratOfNumStr (stripCommas num) with
    | none => none
    | some amount => some (amount, cur)

/-! ### Price gateway (`get_price`, lines 45–70)

The network is modelled by passing the gateway's behaviour as a function
from the queried identifier to a response.  `failure` models a
`requests.exceptions.RequestException`; `ok none` models a successful
response whose JSON lacks the queried id (`coin_id not in data`);
`ok (some (usd, jpy))` models a successful response, either price
independently optional. -/

inductive GatewayResp where
  | failure : GatewayResp
  | ok : Option (Option ℚ × Option ℚ) → GatewayResp
deriving DecidableEq

/-- `get_price`: both the missing-id case and the request-failure case
collapse to `(None, None)`. -/
def get_price (gw : String → GatewayResp) (coin_id : String) : Option ℚ × Option ℚ :=
  match gw coin_id with
  | .failure => (none, none)
  | .ok none => (none, none)
  | .ok (some p) => p

/-- Error message `エラー: '<name>' はサポートされていない暗号通貨です`. -/
def unsupportedCoinMsg (name : String) : String :=
  "エラー: '" ++ name ++ "' はサポートされていない暗号通貨です"

/-- Error message `エラー: '<name>' の価格情報を取得できませんでした`. -/
def priceInfoMsg (name : String) : String :=
  "エラー: '" ++ name ++ "' の価格情報を取得できませんでした"

/-- `convert_currency` (lines 295–351).  `sys.exit(1)` after a message on
stderr is `Except.error` of that message; the printed conversion result is
`Except.ok`. -/
def convert_currency (gw : String → GatewayResp) (amount : ℚ)
    (from_currency to_coin : String) : Except String String :=
  if from_currency = "JPY" then
    let coin_id := get_coin_id to_coin
    if coin_id = "" then .error (unsupportedCoinMsg to_coin)
    else
      match (get_price gw coin_id).2 with
      | none => .error (priceInfoMsg to_coin)
      | some jpy_price => .ok (format_crypto_amount (amount / jpy_price) to_coin)
  else if from_currency = "USD" then
    let coin_id := get_coin_id to_coin
    if coin_id = "" then .error (unsupportedCoinMsg to_coin)
    else
      match (get_price gw coin_id).1 with
      | none => .error (priceInfoMsg to_coin)
      | some usd_price => .ok (format_crypto_amount (amount / usd_price) to_coin)
  else if (COIN_MAPPING.map Prod.fst).contains (strUpper from_currency)
      || (COIN_MAPPING.map Prod.snd).contains (strLower from_currency) then
    let from_coin_id := get_coin_id from_currency
    let to_coin_id := get_coin_id to_coin
    if from_coin_id = "" || to_coin_id = "" then
      .error "エラー: サポートされていない暗号通貨です"
    else
      match (get_price gw from_coin_id).1, (get_price gw to_coin_id).1 with
      | some from_usd_price, some to_usd_price =>
        .ok (format_crypto_amount (amount * from_usd_price / to_usd_price) to_coin)
      | _, _ => .error "エラー: 価格情報を取得できませんでした"
  else
    .error ("エラー: '" ++ from_currency ++ "' はサポートされていない通貨です")

/-- The guard of the crypto → crypto branch in the position it occupies in
the `if/elif` chain of `convert_currency`: it is reached only after the
`JPY` and `USD` branches have been rejected. -/
def cryptoPathTaken (from_currency : String) : Bool :=
  !(from_currency == "JPY") && !(from_currency == "USD")
    && ((COIN_MAPPING.map Prod.fst).contains (strUpper from_currency)
        || (COIN_MAPPING.map Prod.snd).contains (strLower from_currency))

/-! ### Market data (`get_market_data`, lines 73–143) -/

/-- One coin's entry in the `simple/price` response (each field via
`.get`, hence optional). -/
structure CoinData where
  usd : Option ℚ
  jpy : Option ℚ
  usd_market_cap : Option ℚ
  jpy_market_cap : Option ℚ
  usd_24h_vol : Option ℚ
  jpy_24h_vol : Option ℚ
deriving DecidableEq

/-- The fields `get_market_data` reads from the `coins/<id>` detail
response; `name`/`symbol` default to `''` via `.get`, the numeric fields
are optional. -/
structure DetailData where
  name : String
  symbol : String
  fdv_usd : Option ℚ
  fdv_jpy : Option ℚ
  circulating_supply : Option ℚ
  total_supply : Option ℚ
  max_supply : Option ℚ
deriving DecidableEq

/-- A `simple/price` request outcome: transport failure, or a response in
which the queried id may be missing. -/
inductive SpotResp where
  | failure : SpotResp
  | ok : Option CoinData → SpotResp
deriving DecidableEq

/-- A `coins/<id>` detail request outcome. -/
inductive DetailResp where
  | failure : DetailResp
  | ok : DetailData → DetailResp
deriving DecidableEq

/-- The dictionary `get_market_data` returns.  In the degraded branch the
source dict simply lacks the detail-derived keys; since `show_price` reads
every key with `.get`, a missing key and a `None` value are
indistinguishable, and both are modelled as `none`. -/
structure MarketData where
  name : String
  symbol : String
  usd_price : Option ℚ
  jpy_price : Option ℚ
  market_cap_usd : Option ℚ
  market_cap_jpy : Option ℚ
  fully_diluted_valuation_usd : Option ℚ
  fully_diluted_valuation_jpy : Option ℚ
  total_volume_24h_usd : Option ℚ
  total_volume_24h_jpy : Option ℚ
  circulating_supply : Option ℚ
  total_supply : Option ℚ
  max_supply : Option ℚ
deriving DecidableEq

/-- `get_market_data`: fetch the spot price; on success fetch the detail
data, and if only that second call fails, return the degraded dictionary of
lines 129–138 (empty name, uppercased identifier as symbol, spot-derived
fields only). -/
def get_market_data (spotApi : String → SpotResp) (detailApi : String → DetailResp)
    (coin_id : String) : Option MarketData :=
  match spotApi coin_id with
  | .failure => none
  | .ok none => none
  | .ok (some cd) =>
    match detailApi coin_id with
    | .ok dd =>
      some { name := dd.name
             symbol := strUpper dd.symbol
             usd_price := cd.usd
             jpy_price := cd.jpy
             market_cap_usd := cd.usd_market_cap
             market_cap_jpy := cd.jpy_market_cap
             fully_diluted_valuation_usd := dd.fdv_usd
             fully_diluted_valuation_jpy := dd.fdv_jpy
             total_volume_24h_usd := cd.usd_24h_vol
             total_volume_24h_jpy := cd.jpy_24h_vol
             circulating_supply := dd.circulating_supply
             total_supply := dd.total_supply
             max_supply := dd.max_supply }
    | .failure =>
      some { name := ""
             symbol := strUpper coin_id
             usd_price := cd.usd
             jpy_price := cd.jpy
             market_cap_usd := cd.usd_market_cap
             market_cap_jpy := cd.jpy_market_cap
             fully_diluted_valuation_usd := none
             fully_diluted_valuation_jpy := none
             total_volume_24h_usd := cd.usd_24h_vol
             total_volume_24h_jpy := cd.jpy_24h_vol
             circulating_supply := none
             total_supply := none
             max_supply := none }

/-! ### Display orchestrator (`show_price`, lines 230–292)

Each `print` to stdout contributes one element to the returned line list.
Each conditional line of the market-data section is guarded by Python
truthiness of the field (`if market_data.get(...):`), each supply line by
`is not None`; every guard reads exactly one field, which the segment
functions below make explicit. -/

/-- Python truthiness of an optional float: `None` and `0.0` are falsy. -/
def truthy (o : Option ℚ) : Bool :=
  match o with
  | none => false
  | some v => decide (v ≠ 0)

/-- A `=== <name> (<symbol>) <section> ===` header; the name is omitted
when it is empty. -/
def headerLines (name symbol section_name : String) : List String :=
  if name ≠ "" then ["=== " ++ name ++ " (" ++ symbol ++ ") " ++ section_name ++ " ==="]
  else ["=== " ++ symbol ++ " " ++ section_name ++ " ==="]

/-- Line 264–265: emitted iff `market_cap_usd` is truthy. -/
def marketCapUsdLines (o : Option ℚ) : List String :=
  if truthy o then ["Market Cap (USD): $" ++ format_large_number o] else []

/-- Line 266–267: emitted iff `market_cap_jpy` is truthy. -/
def marketCapJpyLines (o : Option ℚ) : List String :=
  if truthy o then ["Market Cap (JPY): ¥" ++ format_large_number o] else []

/-- Line 270–271: emitted iff `fully_diluted_valuation_usd` is truthy. -/
def fdvUsdLines (o : Option ℚ) : List String :=
  if truthy o then ["Fully Diluted Valuation (USD): $" ++ format_large_number o] else []

/-- Line 272–273: emitted iff `fully_diluted_valuation_jpy` is truthy. -/
def fdvJpyLines (o : Option ℚ) : List String :=
  if truthy o then ["Fully Diluted Valuation (JPY): ¥" ++ format_large_number o] else []

/-- Line 276–277: emitted iff `total_volume_24h_usd` is truthy. -/
def volUsdLines (o : Option ℚ) : List String :=
  if truthy o then ["24 Hour Trading Vol (USD): $" ++ format_large_number o] else []

/-- Line 278–279: emitted iff `total_volume_24h_jpy` is truthy. -/
def volJpyLines (o : Option ℚ) : List String :=
  if truthy o then ["24 Hour Trading Vol (JPY): ¥" ++ format_large_number o] else []

/-- Line 287–288: emitted iff `circulating_supply` is not `None`. -/
def circSupplyLines (o : Option ℚ) (symbol : String) : List String :=
  if o.isSome then ["Circulating Supply: " ++ format_supply o ++ " " ++ symbol] else []

/-- Line 289–290: emitted iff `total_supply` is not `None`. -/
def totalSupplyLines (o : Option ℚ) (symbol : String) : List String :=
  if o.isSome then ["Total Supply: " ++ format_supply o ++ " " ++ symbol] else []

/-- Line 291–292: emitted iff `max_supply` is not `None`. -/
def maxSupplyLines (o : Option ℚ) (symbol : String) : List String :=
  if o.isSome then ["Max Supply: " ++ format_supply o ++ " " ++ symbol] else []

/-- `show_price`: full report, or the error printed before `sys.exit(1)`. -/
def show_price (spotApi : String → SpotResp) (detailApi : String → DetailResp)
    (coin_name : String) : Except String (List String) :=
  if get_coin_id coin_name = "" then .error (unsupportedCoinMsg coin_name)
  else
    match get_market_data spotApi detailApi (get_coin_id coin_name) with
    | none => .error (priceInfoMsg coin_name)
    | some md =>
      match md.usd_price, md.jpy_price with
      | some u, some j =>
        .ok (headerLines md.name md.symbol "Price Data"
          ++ [format_price u "USD", format_price j "JPY", ""]
          ++ headerLines md.name md.symbol "Market Data"
          ++ marketCapUsdLines md.market_cap_usd
          ++ marketCapJpyLines md.market_cap_jpy
          ++ fdvUsdLines md.fully_diluted_valuation_usd
          ++ fdvJpyLines md.fully_diluted_valuation_jpy
          ++ volUsdLines md.total_volume_24h_usd
          ++ volJpyLines md.total_volume_24h_jpy
          ++ [""]
          ++ headerLines md.name md.symbol "Supply"
          ++ circSupplyLines md.circulating_supply md.symbol
          ++ totalSupplyLines md.total_supply md.symbol
          ++ maxSupplyLines md.max_supply md.symbol)
      | _, _ => .error (priceInfoMsg coin_name)

/-! ## Helper lemmas -/

theorem char_toNat_ofNat (n : Nat) (h : n.isValidChar) : (Char.ofNat n).toNat = n := by
  rw [Char.ofNat, dif_pos h]; rfl

theorem char_toUpper_toLower (c : Char) : c.toLower.toUpper = c.toUpper := by
  simp only [Char.toLower, Char.toUpper]
  by_cases h : c.toNat ≥ 65 ∧ c.toNat ≤ 90
  · rw [if_pos h]
    have hv : (c.toNat + 32).isValidChar := Or.inl (by omega)
    have ht : (Char.ofNat (c.toNat + 32)).toNat = c.toNat + 32 := char_toNat_ofNat _ hv
    rw [ht, if_pos (by omega), if_neg (by omega)]
    have : c.toNat + 32 - 32 = c.toNat := by omega
    rw [this, Char.ofNat_toNat]
  · rw [if_neg h]

theorem char_toLower_toLower (c : Char) : c.toLower.toLower = c.toLower := by
  simp only [Char.toLower]
  by_cases h : c.toNat ≥ 65 ∧ c.toNat ≤ 90
  · rw [if_pos h]
    have hv : (c.toNat + 32).isValidChar := Or.inl (by omega)
    have ht : (Char.ofNat (c.toNat + 32)).toNat = c.toNat + 32 := char_toNat_ofNat _ hv
    rw [ht, if_neg (by omega)]
  · rw [if_neg h, if_neg h]

theorem strUpper_strLower (s : String) : strUpper (strLower s) = strUpper s := by
  have hf : Char.toUpper ∘ Char.toLower = Char.toUpper := funext char_toUpper_toLower
  simp [strUpper, strLower, List.map_map, hf]

theorem strLower_strLower (s : String) : strLower (strLower s) = strLower s := by
  have hf : Char.toLower ∘ Char.toLower = Char.toLower := funext char_toLower_toLower
  simp [strLower, List.map_map, hf]

theorem strLower_ne_empty {s : String} (h : s ≠ "") : strLower s ≠ "" := by
  intro he
  apply h
  cases s with
  | mk data =>
    cases data with
    | nil => rfl
    | cons c cs => simp [strLower, String.ext_iff] at he

theorem dictGet_mem {l : List (String × String)} {k v : String}
    (h : dictGet l k = some v) : (k, v) ∈ l := by
  induction l with
  | nil => simp [dictGet] at h
  | cons p rest ih =>
    obtain ⟨k', v'⟩ := p
    rw [dictGet] at h
    split at h
    · rename_i heq
      injection h with hv
      subst heq hv
      exact List.mem_cons_self _ _
    · exact List.mem_cons_of_mem _ (ih h)

theorem coin_fixed : ∀ p ∈ COIN_MAPPING, get_coin_id p.2 = p.2 ∧ p.2 ≠ "" := by decide

theorem get_coin_id_ne_empty {s : String} (h : s ≠ "") : get_coin_id s ≠ "" := by
  unfold get_coin_id
  cases hd : dictGet COIN_MAPPING (strUpper s) with
  | none => simpa using strLower_ne_empty h
  | some v => simpa using (coin_fixed (strUpper s, v) (dictGet_mem hd)).2

theorem roundHalfEven_intCast (m : ℤ) : roundHalfEven (m : ℚ) = m := by
  unfold roundHalfEven
  rw [Int.floor_intCast]
  norm_num

theorem formatFixedNN_eval (q : ℚ) (n m : ℕ) (h : q * 10 ^ n = (m : ℚ)) :
    formatFixedNN q n = natStr (m / 10 ^ n) ++ "." ++ fracPad n (m % 10 ^ n) := by
  unfold formatFixedNN
  rw [h, show ((m : ℚ)) = ((m : ℤ) : ℚ) by push_cast; ring, roundHalfEven_intCast]
  simp

theorem formatFixed_eval (q : ℚ) (n m : ℕ) (hq : 0 ≤ q) (h : q * 10 ^ n = (m : ℚ)) :
    formatFixed q n = natStr (m / 10 ^ n) ++ "." ++ fracPad n (m % 10 ^ n) := by
  unfold formatFixed
  rw [if_neg (not_lt.mpr hq), formatFixedNN_eval q n m h]

theorem formatFixedGroupedNN_eval (q : ℚ) (n m : ℕ) (h : q * 10 ^ n = (m : ℚ)) :
    formatFixedGroupedNN q n = groupNat (m / 10 ^ n) ++ "." ++ fracPad n (m % 10 ^ n) := by
  unfold formatFixedGroupedNN
  rw [h, show ((m : ℚ)) = ((m : ℤ) : ℚ) by push_cast; ring, roundHalfEven_intCast]
  simp

theorem formatFixedGrouped_eval (q : ℚ) (n m : ℕ) (hq : 0 ≤ q) (h : q * 10 ^ n = (m : ℚ)) :
    formatFixedGrouped q n = groupNat (m / 10 ^ n) ++ "." ++ fracPad n (m % 10 ^ n) := by
  unfold formatFixedGrouped
  rw [if_neg (not_lt.mpr hq), formatFixedGroupedNN_eval q n m h]

/-! ## Claim theorems -/

/-- C10: symbol resolution is idempotent — `get_coin_id (get_coin_id s) =
get_coin_id s` for every non-empty `s` (a table hit resolves to itself, and
the lowercase fallback is a fixed point) — and `get_coin_id` returns a
non-empty string on non-empty input. -/
theorem get_coin_id_idempotent (s : String) (h : s ≠ "") :
    get_coin_id (get_coin_id s) = get_coin_id s ∧ get_coin_id s ≠ "" := by
  refine ⟨?_, get_coin_id_ne_empty h⟩
  cases hd : dictGet COIN_MAPPING (strUpper s) with
  | some v =>
    have hv : get_coin_id s = v := by simp [get_coin_id, hd]
    rw [hv]
    exact (coin_fixed (strUpper s, v) (dictGet_mem hd)).1
  | none =>
    have hv : get_coin_id s = strLower s := by simp [get_coin_id, hd]
    rw [hv]
    have h2 : dictGet COIN_MAPPING (strUpper (strLower s)) = none := by
      rw [strUpper_strLower]; exact hd
    simp [get_coin_id, h2, strLower_strLower]

theorem get_coin_id_idempotent_witness :
    "Eth" ≠ "" ∧ (get_coin_id (get_coin_id "Eth") = get_coin_id "Eth" ∧ get_coin_id "Eth" ≠ "") :=
  ⟨by decide, get_coin_id_idempotent "Eth" (by decide)⟩

/-- C1: on the JPY → crypto path, whenever the gateway yields a JPY price
`p` for the resolved target, the conversion succeeds and prints
`format_crypto_amount (amount / p)` — the quantity is `amount / p`. -/
theorem convert_jpy_path (gw : String → GatewayResp) (amount : ℚ) (to_coin : String) (p : ℚ)
    (hto : to_coin ≠ "") (hp : (get_price gw (get_coin_id to_coin)).2 = some p) :
    convert_currency gw amount "JPY" to_coin
      = .ok (format_crypto_amount (amount / p) to_coin) := by
  unfold convert_currency
  simp [get_coin_id_ne_empty hto, hp]

/-- Mocked gateway for the C1 witness: JPY price 500000 for `ethereum`. -/
def gwJpyMock : String → GatewayResp := fun id =>
  if id = "ethereum" then .ok (some (none, some 500000)) else .failure

theorem convert_jpy_path_witness :
    "ETH" ≠ "" ∧ (get_price gwJpyMock (get_coin_id "ETH")).2 = some 500000 ∧
    convert_currency gwJpyMock 100 "JPY" "ETH" = .ok "0.000200ETH" := by
  refine ⟨by decide, by decide, ?_⟩
  rw [convert_jpy_path gwJpyMock 100 "ETH" 500000 (by decide) (by decide)]
  unfold format_crypto_amount
  rw [if_neg (by norm_num), if_pos (by norm_num),
    formatFixed_eval (100 / 500000) 6 200 (by norm_num) (by norm_num)]
  exact congrArg Except.ok (by decide)

/-- C2: the crypto → crypto branch guard is equivalent to "uppercased code
is a key of `COIN_MAPPING`, or lowercased code is one of its values" (the
preceding `JPY`/`USD` branches never shadow it), and on that branch with
source USD price `s` and target USD price `t` the printed quantity is
`amount * s / t`. -/
theorem convert_crypto_path :
    (∀ fc : String, cryptoPathTaken fc =
        ((COIN_MAPPING.map Prod.fst).contains (strUpper fc)
          || (COIN_MAPPING.map Prod.snd).contains (strLower fc))) ∧
    (∀ (gw : String → GatewayResp) (amount : ℚ) (fc to_coin : String) (s t : ℚ),
      ((COIN_MAPPING.map Prod.fst).contains (strUpper fc)
        || (COIN_MAPPING.map Prod.snd).contains (strLower fc)) = true →
      to_coin ≠ "" →
      (get_price gw (get_coin_id fc)).1 = some s →
      (get_price gw (get_coin_id to_coin)).1 = some t →
      convert_currency gw amount fc to_coin
        = .ok (format_crypto_amount (amount * s / t) to_coin)) ∧
    (∀ (gw : String → GatewayResp) (amount : ℚ) (fc to_coin : String),
      fc ≠ "JPY" → fc ≠ "USD" →
      ((COIN_MAPPING.map Prod.fst).contains (strUpper fc)
        || (COIN_MAPPING.map Prod.snd).contains (strLower fc)) = false →
      convert_currency gw amount fc to_coin
        = .error ("エラー: '" ++ fc ++ "' はサポートされていない通貨です")) := by
  refine ⟨?_, ?_, ?_⟩
  · intro fc
    by_cases hj : fc = "JPY"
    · subst hj; decide
    · by_cases hu : fc = "USD"
      · subst hu; decide
      · simp [cryptoPathTaken, hj, hu]
  · intro gw amount fc to_coin s t hc hto hs ht
    have hj : fc ≠ "JPY" := by rintro rfl; exact absurd hc (by decide)
    have hu : fc ≠ "USD" := by rintro rfl; exact absurd hc (by decide)
    have hfc : fc ≠ "" := by rintro rfl; exact absurd hc (by decide)
    have h1 : get_coin_id fc ≠ "" := get_coin_id_ne_empty hfc
    have h2 : get_coin_id to_coin ≠ "" := get_coin_id_ne_empty hto
    unfold convert_currency
    rw [if_neg hj, if_neg hu, if_pos hc]
    simp [h1, h2, hs, ht]
  · intro gw amount fc to_coin hj hu hc
    unfold convert_currency
    rw [if_neg hj, if_neg hu, if_neg (by rw [hc]; simp)]

/-- Mocked gateway for the C2 witness: USD prices 2000 for `ethereum` and
50000 for `bitcoin`. -/
def gwCryptoMock : String → GatewayResp := fun id =>
  if id = "ethereum" then .ok (some (some 2000, none))
  else if id = "bitcoin" then .ok (some (some 50000, none))
  else .failure

theorem convert_crypto_path_witness :
    cryptoPathTaken "ETH"
        = ((COIN_MAPPING.map Prod.fst).contains (strUpper "ETH")
          || (COIN_MAPPING.map Prod.snd).contains (strLower "ETH")) ∧
    convert_currency gwCryptoMock 1 "ETH" "BTC" = .ok "0.040000BTC" ∧
    convert_currency gwCryptoMock 1 "EUR" "BTC"
      = .error ("エラー: '" ++ "EUR" ++ "' はサポートされていない通貨です") := by
  refine ⟨convert_crypto_path.1 "ETH", ?_,
    convert_crypto_path.2.2 gwCryptoMock 1 "EUR" "BTC" (by decide) (by decide) (by decide)⟩
  rw [convert_crypto_path.2.1 gwCryptoMock 1 "ETH" "BTC" 2000 50000
    (by decide) (by decide) (by decide) (by decide)]
  unfold format_crypto_amount
  rw [if_neg (by norm_num), if_pos (by norm_num),
    formatFixed_eval (1 * 2000 / 50000) 6 40000 (by norm_num) (by norm_num)]
  exact congrArg Except.ok (by decide)

/-! ### Parser lemmas -/

theorem takeWhile_all_eq {α} {p : α → Bool} {l : List α} (h : ∀ c ∈ l, p c = true) :
    l.takeWhile p = l := by
  have h2 := @List.takeWhile_append_of_pos _ p l [] h
  simpa using h2

theorem dropWhile_all_eq {α} {p : α → Bool} {l : List α} (h : ∀ c ∈ l, p c = true) :
    l.dropWhile p = [] := by
  have h2 := @List.dropWhile_append_of_pos _ p l [] h
  simpa using h2

theorem takeWhile_middle {α} (p : α → Bool) (a : List α) (x : α) (b : List α)
    (ha : ∀ c ∈ a, p c = true) (hx : p x = false) :
    (a ++ x :: b).takeWhile p = a := by
  rw [List.takeWhile_append_of_pos ha, List.takeWhile_cons, hx]
  simp

theorem dropWhile_middle {α} (p : α → Bool) (a : List α) (x : α) (b : List α)
    (ha : ∀ c ∈ a, p c = true) (hx : p x = false) :
    (a ++ x :: b).dropWhile p = x :: b := by
  rw [List.dropWhile_append_of_pos ha, List.dropWhile_cons, hx]
  simp

theorem afterNum_spec {p1 r1 : List Char} {num cur : String}
    (h : afterNum p1 r1 = some (num, cur)) :
    cur.data ≠ [] ∧ (∀ c ∈ cur.data, isUpperAZ c = true) ∧
    (num.data = p1 ∨ ∃ b, num.data = p1 ++ '.' :: b ∧ ∀ c ∈ b, c.isDigit = true) := by
  unfold afterNum at h
  split at h
  · rename_i rest
    split at h
    · rename_i hcond
      obtain ⟨hne, hall⟩ := Bool.and_eq_true_iff.mp hcond
      injection h with h'
      injection h' with h1 h2
      subst h1 h2
      refine ⟨?_, ?_, Or.inr ⟨rest.takeWhile Char.isDigit, rfl, ?_⟩⟩
      · intro he
        rw [show ((⟨rest.dropWhile Char.isDigit⟩ : String)).data = rest.dropWhile Char.isDigit
          from rfl] at he
        rw [he] at hne
        exact absurd hne (by decide)
      · intro c hc
        exact List.all_eq_true.mp hall c hc
      · intro c hc
        exact List.mem_takeWhile_imp hc
    · exact absurd h (by simp)
  · split at h
    · rename_i hcond
      obtain ⟨hne, hall⟩ := Bool.and_eq_true_iff.mp hcond
      injection h with h'
      injection h' with h1 h2
      subst h1 h2
      refine ⟨?_, fun c hc => List.all_eq_true.mp hall c hc, Or.inl rfl⟩
      intro he
      rw [show ((⟨r1⟩ : String)).data = r1 from rfl] at he
      rw [he] at hne
      exact absurd hne (by decide)
    · exact absurd h (by simp)

theorem regexSplit_spec {u num cur : String} (h : regexSplit u = some (num, cur)) :
    cur.data ≠ [] ∧ (∀ c ∈ cur.data, isUpperAZ c = true) ∧
    ((num.data ≠ [] ∧ ∀ c ∈ num.data, isNumC c = true) ∨
      ∃ a b : List Char, num.data = a ++ '.' :: b ∧ a ≠ [] ∧
        (∀ c ∈ a, isNumC c = true) ∧ ∀ c ∈ b, c.isDigit = true) := by
  unfold regexSplit at h
  split at h
  · exact absurd h (by simp)
  · rename_i hp
    have hpne : u.data.takeWhile isNumC ≠ [] := fun he => hp (by rw [he]; rfl)
    have hpall : ∀ c ∈ u.data.takeWhile isNumC, isNumC c = true :=
      fun c hc => List.mem_takeWhile_imp hc
    obtain ⟨h1, h2, h3⟩ := afterNum_spec h
    refine ⟨h1, h2, ?_⟩
    cases h3 with
    | inl hc => exact Or.inl ⟨by rw [hc]; exact hpne, by rw [hc]; exact hpall⟩
    | inr hc =>
      obtain ⟨b, hb, hball⟩ := hc
      exact Or.inr ⟨u.data.takeWhile isNumC, b, hb, hpne, hpall, hball⟩

theorem ratOfNumStr_digits (l : List Char) (hl : ∀ c ∈ l, c.isDigit = true) (hne : l ≠ []) :
    ratOfNumStr ⟨l⟩ = some ((natOfDigits l : ℚ)) := by
  have hnd : ∀ c ∈ l, (fun c => decide (c ≠ '.')) c = true := by
    intro c hc
    have hd := hl c hc
    simp only [decide_eq_true_eq]
    intro he
    rw [he] at hd
    exact absurd hd (by decide)
  unfold ratOfNumStr
  rw [show ((⟨l⟩ : String)).data = l from rfl, takeWhile_all_eq hnd, dropWhile_all_eq hnd]
  rw [if_pos (by simp_all [List.isEmpty_iff])]
  simp [natOfDigits]

theorem ratOfNumStr_point (a b : List Char) (ha : ∀ c ∈ a, c.isDigit = true)
    (hb : ∀ c ∈ b, c.isDigit = true) (hne : a ≠ [] ∨ b ≠ []) :
    ratOfNumStr ⟨a ++ '.' :: b⟩
      = some ((natOfDigits a : ℚ) + (natOfDigits b : ℚ) / 10 ^ b.length) := by
  have hna : ∀ c ∈ a, (fun c => decide (c ≠ '.')) c = true := by
    intro c hc
    have hd := ha c hc
    simp only [decide_eq_true_eq]
    intro he
    rw [he] at hd
    exact absurd hd (by decide)
  have hdot : (fun c => decide (c ≠ '.')) '.' = false := by decide
  unfold ratOfNumStr
  rw [show ((⟨a ++ '.' :: b⟩ : String)).data = a ++ '.' :: b from rfl,
    takeWhile_middle _ _ _ _ hna hdot, dropWhile_middle _ _ _ _ hna hdot]
  rw [show ('.' :: b).drop 1 = b from rfl]
  rw [if_pos ?hcond]
  case hcond =>
    simp only [Bool.and_eq_true, List.all_eq_true, Bool.not_eq_true']
    refine ⟨⟨fun c hc => ha c hc, fun c hc => hb c hc⟩, ?_⟩
    cases hne with
    | inl hA => simp [List.isEmpty_iff, hA]
    | inr hB => simp [List.isEmpty_iff, hB]

/-- C3: for every argument whose uppercasing matches the grammar (the
regex finds groups `num`, `cur`) with at least one digit in the numeric
group, parsing succeeds; the currency code is the (all-uppercase, non-empty)
letter suffix, and the value is the numeric interpretation of the group with
commas removed — in particular non-negative.  Concretely,
`parse("1,200.50usd") = (1200.50, "USD")`. -/
theorem parse_valid_grammar :
    (∀ s num cur : String,
      regexSplit (strUpper s) = some (num, cur) →
      num.data.any Char.isDigit = true →
      ∃ v : ℚ, ratOfNumStr (stripCommas num) = some v ∧
        parse_amount_and_currency s = some (v, cur) ∧ 0 ≤ v ∧
        cur ≠ "" ∧ (∀ c ∈ cur.data, isUpperAZ c = true)) ∧
    parse_amount_and_currency "1,200.50usd" = some (2401/2, "USD") := by
  constructor
  · intro s num cur hm hd
    obtain ⟨hcne, hcup, hshape⟩ := regexSplit_spec hm
    have hcur : cur ≠ "" := by
      intro he
      rw [he] at hcne
      exact hcne rfl
    obtain ⟨d, hdmem, hddig⟩ := List.any_eq_true.mp hd
    have hdnc : (fun c => decide (c ≠ ',')) d = true := by
      simp only [decide_eq_true_eq]
      intro he
      rw [he] at hddig
      exact absurd hddig (by decide)
    cases hshape with
    | inl hcase =>
      obtain ⟨hne, hall⟩ := hcase
      have hfdig : ∀ c ∈ num.data.filter (fun c => decide (c ≠ ',')), c.isDigit = true := by
        intro c hc
        obtain ⟨hc1, hc2⟩ := List.mem_filter.mp hc
        have h3 := hall c hc1
        unfold isNumC at h3
        rcases Bool.or_eq_true _ _ |>.mp h3 with h4 | h4
        · exact h4
        · rw [decide_eq_true_eq] at hc2
          exact absurd (by simpa using h4) hc2
      have hfne : num.data.filter (fun c => decide (c ≠ ',')) ≠ [] := by
        intro he
        have hdin : d ∈ num.data.filter (fun c => decide (c ≠ ',')) :=
          List.mem_filter.mpr ⟨hdmem, hdnc⟩
        rw [he] at hdin
        exact absurd hdin (List.not_mem_nil d)
      have hr := ratOfNumStr_digits _ hfdig hfne
      have hsc : stripCommas num = ⟨num.data.filter (fun c => decide (c ≠ ','))⟩ := rfl
      refine ⟨_, by rw [hsc]; exact hr, ?_, by positivity, hcur, hcup⟩
      unfold parse_amount_and_currency
      rw [hm]
      simp only []
      rw [hsc, hr]
    | inr hcase =>
      obtain ⟨a, b, hsplit, hane, haall, hball⟩ := hcase
      have hfadig : ∀ c ∈ a.filter (fun c => decide (c ≠ ',')), c.isDigit = true := by
        intro c hc
        obtain ⟨hc1, hc2⟩ := List.mem_filter.mp hc
        have h3 := haall c hc1
        unfold isNumC at h3
        rcases Bool.or_eq_true _ _ |>.mp h3 with h4 | h4
        · exact h4
        · rw [decide_eq_true_eq] at hc2
          exact absurd (by simpa using h4) hc2
      have hbkeep : b.filter (fun c => decide (c ≠ ',')) = b := by
        rw [List.filter_eq_self]
        intro c hc
        have hd2 := hball c hc
        simp only [decide_eq_true_eq]
        intro he
        rw [he] at hd2
        exact absurd hd2 (by decide)
      have hsc : stripCommas num = ⟨a.filter (fun c => decide (c ≠ ',')) ++ '.' :: b⟩ := by
        unfold stripCommas
        rw [hsplit, List.filter_append, List.filter_cons]
        simp only [show (fun c => decide (c ≠ ',')) '.' = true from by decide, if_pos]
        rw [hbkeep]
      have hne2 : a.filter (fun c => decide (c ≠ ',')) ≠ [] ∨ b ≠ [] := by
        rw [hsplit] at hdmem
        rcases List.mem_append.mp hdmem with h4 | h4
        · left
          intro he
          have hdin : d ∈ a.filter (fun c => decide (c ≠ ',')) :=
            List.mem_filter.mpr ⟨h4, hdnc⟩
          rw [he] at hdin
          exact absurd hdin (List.not_mem_nil d)
        · rcases List.mem_cons.mp h4 with h5 | h5
          · rw [h5] at hddig
            exact absurd hddig (by decide)
          · right
            intro he
            rw [he] at h5
            exact absurd h5 (List.not_mem_nil d)
      have hr := ratOfNumStr_point _ b hfadig hball hne2
      refine ⟨_, by rw [hsc]; exact hr, ?_, by positivity, hcur, hcup⟩
      unfold parse_amount_and_currency
      rw [hm]
      simp only []
      rw [hsc, hr]
  · have h1 : regexSplit (strUpper "1,200.50usd") = some ("1,200.50", "USD") := by decide
    have h2 : stripCommas "1,200.50" = "1200.50" := by decide
    have h3 : ("1200.50" : String) = ⟨['1', '2', '0', '0'] ++ '.' :: ['5', '0']⟩ := by decide
    have h4 := ratOfNumStr_point ['1', '2', '0', '0'] ['5', '0'] (by decide) (by decide)
      (Or.inl (by decide))
    unfold parse_amount_and_currency
    rw [h1]
    simp only []
    rw [h2, h3, h4]
    have e1 : natOfDigits ['1', '2', '0', '0'] = 1200 := by decide
    have e2 : natOfDigits ['5', '0'] = 50 := by decide
    have e3 : (['5', '0'] : List Char).length = 2 := by decide
    rw [e1, e2, e3]
    norm_num

theorem parse_valid_grammar_witness :
    regexSplit (strUpper "100jpy") = some ("100", "JPY") ∧
    ("100" : String).data.any Char.isDigit = true ∧
    ∃ v : ℚ, ratOfNumStr (stripCommas "100") = some v ∧
      parse_amount_and_currency "100jpy" = some (v, "JPY") ∧ 0 ≤ v ∧
      "JPY" ≠ "" ∧ (∀ c ∈ ("JPY" : String).data, isUpperAZ c = true) :=
  ⟨by decide, by decide, parse_valid_grammar.1 "100jpy" "100" "JPY" (by decide) (by decide)⟩

/-- C4: parsing fails on `"USD"` (no digits), `"100"` (no currency suffix),
`"1.2.3USD"` (malformed number) and `",USD"` (regex matches but the
comma-only numeric group cannot convert to a number) — and in general on
every argument whose uppercasing the regex rejects. -/
theorem parse_invalid_inputs :
    parse_amount_and_currency "USD" = none ∧
    parse_amount_and_currency "100" = none ∧
    parse_amount_and_currency "1.2.3USD" = none ∧
    (regexSplit (strUpper ",USD") = some (",", "USD") ∧
      parse_amount_and_currency ",USD" = none) ∧
    ∀ s : String, regexSplit (strUpper s) = none → parse_amount_and_currency s = none := by
  refine ⟨by decide, by decide, by decide, ⟨by decide, by decide⟩, ?_⟩
  intro s h
  unfold parse_amount_and_currency
  rw [h]

theorem parse_invalid_inputs_witness :
    regexSplit (strUpper "eur") = none ∧ parse_amount_and_currency "eur" = none :=
  ⟨by decide, parse_invalid_inputs.2.2.2.2 "eur" (by decide)⟩

/-! ### Decimal-place counting for the fixed-point renderer -/

/-- The number of characters after the (single) decimal point. -/
def decCount (s : String) : Nat := (s.data.reverse.takeWhile (· ≠ '.')).length

theorem natDigitsRevFuel_length_le :
    ∀ (f x n : Nat), x < 10 ^ n → (natDigitsRevFuel f x).length ≤ n := by
  intro f
  induction f with
  | zero =>
    intro x n _
    simp [natDigitsRevFuel]
  | succ f ih =>
    intro x n hx
    unfold natDigitsRevFuel
    by_cases hx0 : x = 0
    · simp [hx0]
    · rw [if_neg hx0]
      simp only [List.length_cons]
      have hn1 : 1 ≤ n := by
        by_contra hc
        have : n = 0 := by omega
        rw [this] at hx
        simp at hx
        omega
      have hx2 : x / 10 < 10 ^ (n - 1) := by
        rw [Nat.div_lt_iff_lt_mul (by norm_num)]
        have : 10 ^ (n - 1) * 10 = 10 ^ n := by
          rw [← pow_succ]
          congr 1
          omega
        omega
      have := ih (x / 10) (n - 1) hx2
      omega

theorem mem_natDigitsRevFuel_ne_dot :
    ∀ (f x : Nat) (c : Char), c ∈ natDigitsRevFuel f x → c ≠ '.' := by
  intro f
  induction f with
  | zero =>
    intro x c hc
    simp [natDigitsRevFuel] at hc
  | succ f ih =>
    intro x c hc
    unfold natDigitsRevFuel at hc
    by_cases hx0 : x = 0
    · rw [if_pos hx0] at hc
      exact absurd hc (List.not_mem_nil c)
    · rw [if_neg hx0] at hc
      rcases List.mem_cons.mp hc with h1 | h1
      · have hlt : x % 10 < 10 := Nat.mod_lt x (by norm_num)
        have hall : ∀ d < 10, Nat.digitChar d ≠ '.' := by decide
        rw [h1]
        exact hall (x % 10) hlt
      · exact ih _ c h1

theorem mem_fracPad_ne_dot (n x : Nat) (c : Char) (hc : c ∈ (fracPad n x).data) : c ≠ '.' := by
  unfold fracPad at hc
  rw [show ((⟨List.leftpad n '0' (natDigits x)⟩ : String)).data
    = List.leftpad n '0' (natDigits x) from rfl] at hc
  unfold List.leftpad at hc
  rcases List.mem_append.mp hc with h1 | h1
  · rw [List.eq_of_mem_replicate h1]
    decide
  · unfold natDigits at h1
    exact mem_natDigitsRevFuel_ne_dot _ _ c (List.mem_reverse.mp h1)

theorem string_data_append (x y : String) : (x ++ y).data = x.data ++ y.data := by
  cases x
  cases y
  rfl

theorem fracPad_length (n x : Nat) (h : x < 10 ^ n) : (fracPad n x).data.length = n := by
  unfold fracPad
  rw [show ((⟨List.leftpad n '0' (natDigits x)⟩ : String)).data
    = List.leftpad n '0' (natDigits x) from rfl]
  rw [List.leftpad_length]
  have hle : (natDigits x).length ≤ n := by
    unfold natDigits
    rw [List.length_reverse]
    exact natDigitsRevFuel_length_le _ _ _ h
  omega

theorem formatFixedNN_decCount (q : ℚ) (n : Nat) : decCount (formatFixedNN q n) = n := by
  unfold formatFixedNN decCount
  rw [string_data_append, string_data_append]
  rw [show ("." : String).data = ['.'] from rfl]
  rw [show (natStr ((roundHalfEven (q * 10 ^ n)).toNat / 10 ^ n)).data
      ++ ['.'] ++ (fracPad n ((roundHalfEven (q * 10 ^ n)).toNat % 10 ^ n)).data
    = (natStr ((roundHalfEven (q * 10 ^ n)).toNat / 10 ^ n)).data
      ++ '.' :: (fracPad n ((roundHalfEven (q * 10 ^ n)).toNat % 10 ^ n)).data
    from by simp]
  rw [List.reverse_append]
  rw [show ('.' :: (fracPad n ((roundHalfEven (q * 10 ^ n)).toNat % 10 ^ n)).data).reverse
    = (fracPad n ((roundHalfEven (q * 10 ^ n)).toNat % 10 ^ n)).data.reverse ++ ['.']
    from by simp]
  rw [show (fracPad n ((roundHalfEven (q * 10 ^ n)).toNat % 10 ^ n)).data.reverse ++ ['.']
      ++ (natStr ((roundHalfEven (q * 10 ^ n)).toNat / 10 ^ n)).data.reverse
    = (fracPad n ((roundHalfEven (q * 10 ^ n)).toNat % 10 ^ n)).data.reverse
      ++ '.' :: (natStr ((roundHalfEven (q * 10 ^ n)).toNat / 10 ^ n)).data.reverse
    from by simp]
  rw [takeWhile_middle _ _ _ _ ?hall (by decide)]
  case hall =>
    intro c hc
    simp only [decide_eq_true_eq]
    exact mem_fracPad_ne_dot _ _ c (List.mem_reverse.mp hc)
  rw [List.length_reverse]
  exact fracPad_length n _ (Nat.mod_lt _ (by positivity))

/-- C5: `format_price` on `"USD"` applies the 8/6/4/2-decimal bands at
thresholds 0.01, 1 and 1000, trims trailing zeros and a trailing point, and
appends `"USD"` with no space; `format_price 0.000005 "USD" = "0.000005USD"`
and `format_price 1500 "USD" = "1500USD"`. -/
theorem format_price_usd_bands :
    (∀ v : ℚ, 0 ≤ v →
      format_price v "USD" =
        trimmed (formatFixed v
          (if v < 1/100 then 8 else if v < 1 then 6 else if v < 1000 then 4 else 2)) ++ "USD") ∧
    format_price (5/1000000) "USD" = "0.000005USD" ∧
    format_price 1500 "USD" = "1500USD" := by
  refine ⟨?_, ?_, ?_⟩
  · intro v _
    unfold format_price
    rw [if_pos rfl]
    split_ifs <;> rfl
  · unfold format_price
    rw [if_pos rfl, if_pos (by norm_num),
      formatFixed_eval (5/1000000) 8 500 (by norm_num) (by norm_num)]
    decide
  · unfold format_price
    rw [if_pos rfl, if_neg (by norm_num), if_neg (by norm_num), if_neg (by norm_num),
      formatFixed_eval 1500 2 150000 (by norm_num) (by norm_num)]
    decide

theorem format_price_usd_bands_witness :
    (0 : ℚ) ≤ 2 ∧
    format_price 2 "USD" =
      trimmed (formatFixed 2
        (if (2 : ℚ) < 1/100 then 8 else if (2 : ℚ) < 1 then 6
          else if (2 : ℚ) < 1000 then 4 else 2)) ++ "USD" :=
  ⟨by norm_num, format_price_usd_bands.1 2 (by norm_num)⟩

/-- C6: `format_crypto_amount` renders with exactly 8 decimal places below
0.0001, exactly 6 below 1 and exactly 2 otherwise — no trimming (the
rendering keeps exactly the band's number of fraction digits) — and appends
the symbol directly; `format_crypto_amount 0.5 "ETH" = "0.500000ETH"`. -/
theorem format_crypto_amount_bands :
    (∀ (v : ℚ) (sym : String), 0 ≤ v →
      format_crypto_amount v sym =
        formatFixed v (if v < 1/10000 then 8 else if v < 1 then 6 else 2) ++ sym ∧
      decCount (formatFixed v (if v < 1/10000 then 8 else if v < 1 then 6 else 2))
        = (if v < 1/10000 then 8 else if v < 1 then 6 else 2)) ∧
    format_crypto_amount (1/2) "ETH" = "0.500000ETH" := by
  constructor
  · intro v sym hv
    constructor
    · unfold format_crypto_amount
      split_ifs <;> rfl
    · unfold formatFixed
      rw [if_neg (not_lt.mpr hv)]
      exact formatFixedNN_decCount _ _
  · unfold format_crypto_amount
    rw [if_neg (by norm_num), if_pos (by norm_num),
      formatFixed_eval (1/2) 6 500000 (by norm_num) (by norm_num)]
    decide

theorem format_crypto_amount_bands_witness :
    (0 : ℚ) ≤ 1/2 ∧
    (format_crypto_amount (1/2) "BTC" =
        formatFixed (1/2) (if (1/2 : ℚ) < 1/10000 then 8 else if (1/2 : ℚ) < 1 then 6 else 2)
          ++ "BTC" ∧
      decCount (formatFixed (1/2)
          (if (1/2 : ℚ) < 1/10000 then 8 else if (1/2 : ℚ) < 1 then 6 else 2))
        = (if (1/2 : ℚ) < 1/10000 then 8 else if (1/2 : ℚ) < 1 then 6 else 2)) :=
  ⟨by norm_num, format_crypto_amount_bands.1 (1/2) "BTC" (by norm_num)⟩

/-! ### C7: degraded market snapshot -/

/-- Spot data used by the C7 mocks. -/
def ethSpotData : CoinData :=
  { usd := some 2000, jpy := some 300000, usd_market_cap := some 240000000000,
    jpy_market_cap := none, usd_24h_vol := some 15000000000, jpy_24h_vol := none }

/-- Mocked spot endpoint for C7: succeeds for `ethereum` only. -/
def spotMockEth : String → SpotResp := fun id =>
  if id = "ethereum" then .ok (some ethSpotData) else .failure

/-- Mocked detail endpoint for C7: always a transport failure. -/
def detailFailMock : String → DetailResp := fun _ => .failure

/-- The degraded snapshot `get_market_data` builds for `ethereum` from
`ethSpotData` when the detail call fails. -/
def degradedEthSnapshot : MarketData :=
  { name := "", symbol := "ETHEREUM", usd_price := some 2000, jpy_price := some 300000,
    market_cap_usd := some 240000000000, market_cap_jpy := none,
    fully_diluted_valuation_usd := none, fully_diluted_valuation_jpy := none,
    total_volume_24h_usd := some 15000000000, total_volume_24h_jpy := none,
    circulating_supply := none, total_supply := none, max_supply := none }

/-- C7 counterexample: in the degraded snapshot the display name is the
EMPTY string and the display symbol the UPPERCASED identifier — neither is
"the identifier itself" as the claim states. -/
theorem get_market_data_degraded_cex :
    get_market_data spotMockEth detailFailMock "ethereum" = some degradedEthSnapshot ∧
    degradedEthSnapshot.name ≠ "ethereum" ∧ degradedEthSnapshot.symbol ≠ "ethereum" :=
  ⟨by decide, by decide, by decide⟩

/-- C7 (amended): if the spot call succeeds for the queried id but the
detail call fails, `get_market_data` does not fail: it returns the degraded
snapshot holding only spot-derived fields, with the display name falling
back to the empty string and the display symbol to the uppercased
identifier. -/
theorem get_market_data_degraded (spotApi : String → SpotResp) (detailApi : String → DetailResp)
    (coin_id : String) (cd : CoinData)
    (hs : spotApi coin_id = .ok (some cd)) (hd : detailApi coin_id = .failure) :
    get_market_data spotApi detailApi coin_id =
      some { name := "", symbol := strUpper coin_id, usd_price := cd.usd, jpy_price := cd.jpy,
             market_cap_usd := cd.usd_market_cap, market_cap_jpy := cd.jpy_market_cap,
             fully_diluted_valuation_usd := none, fully_diluted_valuation_jpy := none,
             total_volume_24h_usd := cd.usd_24h_vol, total_volume_24h_jpy := cd.jpy_24h_vol,
             circulating_supply := none, total_supply := none, max_supply := none } := by
  unfold get_market_data
  rw [hs, hd]

theorem get_market_data_degraded_witness :
    spotMockEth "ethereum" = SpotResp.ok (some ethSpotData) ∧
    detailFailMock "ethereum" = DetailResp.failure ∧
    get_market_data spotMockEth detailFailMock "ethereum" =
      some { name := "", symbol := strUpper "ethereum", usd_price := ethSpotData.usd,
             jpy_price := ethSpotData.jpy, market_cap_usd := ethSpotData.usd_market_cap,
             market_cap_jpy := ethSpotData.jpy_market_cap,
             fully_diluted_valuation_usd := none, fully_diluted_valuation_jpy := none,
             total_volume_24h_usd := ethSpotData.usd_24h_vol,
             total_volume_24h_jpy := ethSpotData.jpy_24h_vol,
             circulating_supply := none, total_supply := none, max_supply := none } :=
  ⟨by decide, rfl,
    get_market_data_degraded spotMockEth detailFailMock "ethereum" ethSpotData (by decide) rfl⟩

/-! ### C9: unresolved target vs gateway failure -/

/-- Mocked gateway for C9 whose response always lacks the queried id. -/
def gwEthMissing : String → GatewayResp := fun _ => .ok none

/-- Mocked gateway for C9 that always fails at transport level. -/
def gwEthFailing : String → GatewayResp := fun _ => .failure

/-- C9 counterexample: when the target is unresolved (the gateway reports
no data for `ethereum`), `convert_currency` emits exactly the same
price-unavailable error that a transport failure produces — there is no
distinct UnknownAsset error. -/
theorem convert_unknown_asset_cex :
    convert_currency gwEthMissing 100 "JPY" "ETH"
        = .error "エラー: 'ETH' の価格情報を取得できませんでした" ∧
    convert_currency gwEthFailing 100 "JPY" "ETH"
        = convert_currency gwEthMissing 100 "JPY" "ETH" :=
  ⟨rfl, rfl⟩

/-- C9 (amended): an unresolved target ticker (gateway responds without the
guessed identifier) makes the conversion fail with the very
price-unavailable message that a gateway failure during rate lookup
produces; `get_price` collapses both situations to `(None, None)` and the
code has no separate UnknownAsset error. -/
theorem convert_unknown_asset_same_error (gwMissing gwFailing : String → GatewayResp)
    (amount : ℚ) (to_coin : String) (hto : to_coin ≠ "")
    (hm : gwMissing (get_coin_id to_coin) = .ok none)
    (hf : gwFailing (get_coin_id to_coin) = .failure) :
    convert_currency gwMissing amount "JPY" to_coin = .error (priceInfoMsg to_coin) ∧
    convert_currency gwFailing amount "JPY" to_coin = .error (priceInfoMsg to_coin) := by
  have h1 : (get_price gwMissing (get_coin_id to_coin)).2 = none := by
    unfold get_price
    rw [hm]
  have h2 : (get_price gwFailing (get_coin_id to_coin)).2 = none := by
    unfold get_price
    rw [hf]
  constructor <;>
    · unfold convert_currency
      simp [get_coin_id_ne_empty hto, h1, h2]

theorem convert_unknown_asset_same_error_witness :
    ("ETH" ≠ "" ∧ gwEthMissing (get_coin_id "ETH") = GatewayResp.ok none ∧
      gwEthFailing (get_coin_id "ETH") = GatewayResp.failure) ∧
    (convert_currency gwEthMissing 100 "JPY" "ETH" = .error (priceInfoMsg "ETH") ∧
      convert_currency gwEthFailing 100 "JPY" "ETH" = .error (priceInfoMsg "ETH")) :=
  ⟨⟨by decide, rfl, rfl⟩,
    convert_unknown_asset_same_error gwEthMissing gwEthFailing 100 "ETH" (by decide) rfl rfl⟩

/-! ### C8: independence of the report's conditional lines -/

/-- When resolution and both price fields succeed, the report is the
concatenation of the fixed sections with one independently-guarded segment
per optional field. -/
theorem show_price_ok (spotApi : String → SpotResp) (detailApi : String → DetailResp)
    (coin_name : String) (md : MarketData) (u j : ℚ)
    (h0 : get_coin_id coin_name ≠ "")
    (h1 : get_market_data spotApi detailApi (get_coin_id coin_name) = some md)
    (h2 : md.usd_price = some u) (h3 : md.jpy_price = some j) :
    show_price spotApi detailApi coin_name =
      .ok (headerLines md.name md.symbol "Price Data"
        ++ [format_price u "USD", format_price j "JPY", ""]
        ++ headerLines md.name md.symbol "Market Data"
        ++ marketCapUsdLines md.market_cap_usd
        ++ marketCapJpyLines md.market_cap_jpy
        ++ fdvUsdLines md.fully_diluted_valuation_usd
        ++ fdvJpyLines md.fully_diluted_valuation_jpy
        ++ volUsdLines md.total_volume_24h_usd
        ++ volJpyLines md.total_volume_24h_jpy
        ++ [""]
        ++ headerLines md.name md.symbol "Supply"
        ++ circSupplyLines md.circulating_supply md.symbol
        ++ totalSupplyLines md.total_supply md.symbol
        ++ maxSupplyLines md.max_supply md.symbol) := by
  unfold show_price
  rw [if_neg h0, h1]
  simp only [h2, h3]

/-- Spot data used by the C8 mocks: prices present, USD market cap PRESENT
but zero, JPY market cap absent, both volumes present. -/
def btcSpotData : CoinData :=
  { usd := some 100, jpy := some 15000, usd_market_cap := some 0, jpy_market_cap := none,
    usd_24h_vol := some 5000000, jpy_24h_vol := some 750000000 }

/-- Mocked spot endpoint for C8. -/
def spotMockBtc : String → SpotResp := fun id =>
  if id = "bitcoin" then .ok (some btcSpotData) else .failure

/-- Detail data used by the C8 mocks: circulating supply present, total and
max supply and both valuations absent. -/
def btcDetailData : DetailData :=
  { name := "Bitcoin", symbol := "btc", fdv_usd := none, fdv_jpy := none,
    circulating_supply := some 21000000, total_supply := none, max_supply := none }

/-- Mocked detail endpoint for C8. -/
def detailMockBtc : String → DetailResp := fun id =>
  if id = "bitcoin" then .ok btcDetailData else .failure

/-- The snapshot `get_market_data` produces from the C8 mocks. -/
def btcSnapshot : MarketData :=
  { name := "Bitcoin", symbol := "BTC", usd_price := some 100, jpy_price := some 15000,
    market_cap_usd := some 0, market_cap_jpy := none,
    fully_diluted_valuation_usd := none, fully_diluted_valuation_jpy := none,
    total_volume_24h_usd := some 5000000, total_volume_24h_jpy := some 750000000,
    circulating_supply := some 21000000, total_supply := none, max_supply := none }

theorem format_price_100_usd : format_price 100 "USD" = "100USD" := by
  unfold format_price
  rw [if_pos rfl, if_neg (by norm_num), if_neg (by norm_num), if_pos (by norm_num),
    formatFixed_eval 100 4 1000000 (by norm_num) (by norm_num)]
  decide

theorem format_price_15000_jpy : format_price 15000 "JPY" = "15000JPY" := by
  unfold format_price
  rw [if_neg (by decide), if_pos rfl, if_neg (by norm_num),
    formatFixed_eval 15000 2 1500000 (by norm_num) (by norm_num)]
  decide

theorem fln_5000000 : format_large_number (some 5000000) = "5,000,000" := by
  show (if (5000000 : ℚ) ≥ 1000000 then trimmed (formatFixedGrouped 5000000 2)
    else if (5000000 : ℚ) ≥ 1000 then trimmed (formatFixedGrouped 5000000 2)
    else trimmed (formatFixedGrouped 5000000 4)) = "5,000,000"
  rw [if_pos (by norm_num),
    formatFixedGrouped_eval 5000000 2 500000000 (by norm_num) (by norm_num)]
  decide

theorem fln_750000000 : format_large_number (some 750000000) = "750,000,000" := by
  show (if (750000000 : ℚ) ≥ 1000000 then trimmed (formatFixedGrouped 750000000 2)
    else if (750000000 : ℚ) ≥ 1000 then trimmed (formatFixedGrouped 750000000 2)
    else trimmed (formatFixedGrouped 750000000 4)) = "750,000,000"
  rw [if_pos (by norm_num),
    formatFixedGrouped_eval 750000000 2 75000000000 (by norm_num) (by norm_num)]
  decide

theorem fln_zero : format_large_number (some 0) = "0" := by
  show (if (0 : ℚ) ≥ 1000000 then trimmed (formatFixedGrouped 0 2)
    else if (0 : ℚ) ≥ 1000 then trimmed (formatFixedGrouped 0 2)
    else trimmed (formatFixedGrouped 0 4)) = "0"
  rw [if_neg (by norm_num), if_neg (by norm_num),
    formatFixedGrouped_eval 0 4 0 (by norm_num) (by norm_num)]
  decide

theorem fsup_21000000 : format_supply (some 21000000) = "21,000,000" := by
  show (if (21000000 : ℚ).den = 1 then groupInt (21000000 : ℚ).num
    else trimmed (formatFixedGrouped 21000000 2)) = "21,000,000"
  rw [if_pos (by decide)]
  decide

theorem volUsd_5000000 :
    volUsdLines (some 5000000) = ["24 Hour Trading Vol (USD): $5,000,000"] := by
  unfold volUsdLines
  rw [if_pos (by decide), fln_5000000]
  decide

theorem volJpy_750000000 :
    volJpyLines (some 750000000) = ["24 Hour Trading Vol (JPY): ¥750,000,000"] := by
  unfold volJpyLines
  rw [if_pos (by decide), fln_750000000]
  decide

theorem circ_21000000 :
    circSupplyLines (some 21000000) "BTC" = ["Circulating Supply: 21,000,000 BTC"] := by
  unfold circSupplyLines
  rw [if_pos (by decide), fsup_21000000]
  decide

/-- C8 counterexample: `btcSnapshot.market_cap_usd` is PRESENT (with value
0), yet the emitted report contains no market-cap line — its would-be text
`"Market Cap (USD): $0"` is not among the printed lines, while the volume
and circulating-supply lines are printed.  Presence alone does not decide
emission; Python truthiness does. -/
theorem show_price_zero_cap_cex :
    (get_market_data spotMockBtc detailMockBtc (get_coin_id "BTC")).map
      MarketData.market_cap_usd = some (some 0) ∧
    marketCapUsdLines (some 0) = [] ∧
    format_large_number (some 0) = "0" ∧
    show_price spotMockBtc detailMockBtc "BTC" = .ok
      ["=== Bitcoin (BTC) Price Data ===", "100USD", "15000JPY", "",
       "=== Bitcoin (BTC) Market Data ===",
       "24 Hour Trading Vol (USD): $5,000,000",
       "24 Hour Trading Vol (JPY): ¥750,000,000",
       "",
       "=== Bitcoin (BTC) Supply ===",
       "Circulating Supply: 21,000,000 BTC"] ∧
    "Market Cap (USD): $0" ∉
      ["=== Bitcoin (BTC) Price Data ===", "100USD", "15000JPY", "",
       "=== Bitcoin (BTC) Market Data ===",
       "24 Hour Trading Vol (USD): $5,000,000",
       "24 Hour Trading Vol (JPY): ¥750,000,000",
       "",
       "=== Bitcoin (BTC) Supply ===",
       "Circulating Supply: 21,000,000 BTC"] := by
  refine ⟨by decide, by decide, fln_zero, ?_, by decide⟩
  rw [show_price_ok spotMockBtc detailMockBtc "BTC" btcSnapshot 100 15000
    (by decide) (by decide) rfl rfl]
  simp only [btcSnapshot]
  rw [format_price_100_usd, format_price_15000_jpy, volUsd_5000000, volJpy_750000000,
    circ_21000000]
  exact congrArg Except.ok (by decide)

/-- C8 (amended): each market-data line is emitted iff its own field is
present AND nonzero (Python truthiness) and each supply line iff its own
field is present; every guard reads exactly one snapshot field, and the
report is the concatenation of these one-field segments, so no field's
absence or value can suppress another line. -/
theorem show_price_conditional_lines :
    (∀ o : Option ℚ,
      (marketCapUsdLines o ≠ [] ↔ ∃ v, o = some v ∧ v ≠ 0) ∧
      (marketCapJpyLines o ≠ [] ↔ ∃ v, o = some v ∧ v ≠ 0) ∧
      (fdvUsdLines o ≠ [] ↔ ∃ v, o = some v ∧ v ≠ 0) ∧
      (fdvJpyLines o ≠ [] ↔ ∃ v, o = some v ∧ v ≠ 0) ∧
      (volUsdLines o ≠ [] ↔ ∃ v, o = some v ∧ v ≠ 0) ∧
      (volJpyLines o ≠ [] ↔ ∃ v, o = some v ∧ v ≠ 0)) ∧
    (∀ (o : Option ℚ) (sym : String),
      (circSupplyLines o sym ≠ [] ↔ o.isSome = true) ∧
      (totalSupplyLines o sym ≠ [] ↔ o.isSome = true) ∧
      (maxSupplyLines o sym ≠ [] ↔ o.isSome = true)) ∧
    (∀ (spotApi : String → SpotResp) (detailApi : String → DetailResp)
        (coin_name : String) (md : MarketData) (u j : ℚ),
      get_coin_id coin_name ≠ "" →
      get_market_data spotApi detailApi (get_coin_id coin_name) = some md →
      md.usd_price = some u → md.jpy_price = some j →
      show_price spotApi detailApi coin_name =
        .ok (headerLines md.name md.symbol "Price Data"
          ++ [format_price u "USD", format_price j "JPY", ""]
          ++ headerLines md.name md.symbol "Market Data"
          ++ marketCapUsdLines md.market_cap_usd
          ++ marketCapJpyLines md.market_cap_jpy
          ++ fdvUsdLines md.fully_diluted_valuation_usd
          ++ fdvJpyLines md.fully_diluted_valuation_jpy
          ++ volUsdLines md.total_volume_24h_usd
          ++ volJpyLines md.total_volume_24h_jpy
          ++ [""]
          ++ headerLines md.name md.symbol "Supply"
          ++ circSupplyLines md.circulating_supply md.symbol
          ++ totalSupplyLines md.total_supply md.symbol
          ++ maxSupplyLines md.max_supply md.symbol)) := by
  refine ⟨?_, ?_, show_price_ok⟩
  · intro o
    refine ⟨?_, ?_, ?_, ?_, ?_, ?_⟩ <;>
      · cases o with
        | none =>
          simp [marketCapUsdLines, marketCapJpyLines, fdvUsdLines, fdvJpyLines,
            volUsdLines, volJpyLines, truthy]
        | some v =>
          by_cases hv : v = 0
          · subst hv
            simp [marketCapUsdLines, marketCapJpyLines, fdvUsdLines, fdvJpyLines,
              volUsdLines, volJpyLines, truthy]
          · simp [marketCapUsdLines, marketCapJpyLines, fdvUsdLines, fdvJpyLines,
              volUsdLines, volJpyLines, truthy, hv]
  · intro o sym
    refine ⟨?_, ?_, ?_⟩ <;>
      · cases o with
        | none => simp [circSupplyLines, totalSupplyLines, maxSupplyLines]
        | some v => simp [circSupplyLines, totalSupplyLines, maxSupplyLines]

theorem show_price_conditional_lines_witness :
    show_price spotMockBtc detailMockBtc "BTC" =
      .ok (headerLines btcSnapshot.name btcSnapshot.symbol "Price Data"
        ++ [format_price 100 "USD", format_price 15000 "JPY", ""]
        ++ headerLines btcSnapshot.name btcSnapshot.symbol "Market Data"
        ++ marketCapUsdLines btcSnapshot.market_cap_usd
        ++ marketCapJpyLines btcSnapshot.market_cap_jpy
        ++ fdvUsdLines btcSnapshot.fully_diluted_valuation_usd
        ++ fdvJpyLines btcSnapshot.fully_diluted_valuation_jpy
        ++ volUsdLines btcSnapshot.total_volume_24h_usd
        ++ volJpyLines btcSnapshot.total_volume_24h_jpy
        ++ [""]
        ++ headerLines btcSnapshot.name btcSnapshot.symbol "Supply"
        ++ circSupplyLines btcSnapshot.circulating_supply btcSnapshot.symbol
        ++ totalSupplyLines btcSnapshot.total_supply btcSnapshot.symbol
        ++ maxSupplyLines btcSnapshot.max_supply btcSnapshot.symbol) :=
  show_price_conditional_lines.2.2 spotMockBtc detailMockBtc "BTC" btcSnapshot 100 15000
    (by decide) (by decide) rfl rfl

end Coingecko
